import Mathlib

/-!
Verification of the rabbitmq-custom-exporter core against its
natural-language specification.

The Go source is shallowly embedded:
* float64 rate/utilisation values become exact rationals,
* time instants and durations become natural numbers of seconds,
* nil pointers become `Option`,
* the Prometheus gauge/counter vectors become association lists keyed by
  label vectors, with the client library's set/add/reset semantics,
* mutex-guarded mutation becomes explicit state passing (the code is
  sequentially consistent under its locks, so the sequential semantics is
  the one modelled),
* the network becomes an explicit oracle describing what each HTTP attempt
  would return.
-/

namespace RabbitMQExporter

/-! ## Queue data model (rabbitmq/types.go) -/

/-- `rate_details` object of the management API: a single float rate. -/
structure RateDetails where
  rate : ℚ := 0
deriving DecidableEq

/-- `message_stats` substructure; every details pointer may be nil. -/
structure MessageStats where
  publish : Int := 0
  publishDetails : Option RateDetails := none
  deliver : Int := 0
  deliverDetails : Option RateDetails := none
  ack : Int := 0
  ackDetails : Option RateDetails := none
  redeliver : Int := 0
  redeliverDetails : Option RateDetails := none
deriving DecidableEq

/-- One queue record as parsed from the management API.  The declared
arguments map is modelled by its key set only (the collector logic only ever
tests key presence).  `state` and `idleSince` are parsed but never read by
the collector logic. -/
structure Queue where
  name : String := ""
  vhost : String := ""
  messages : Int := 0
  messagesReady : Int := 0
  messagesUnacknowledged : Int := 0
  consumers : Int := 0
  consumerUtilisation : ℚ := 0
  messageStats : Option MessageStats := none
  argumentKeys : List String := []
  state : String := ""
  idleSince : Option Nat := none
deriving DecidableEq

/-- The derived queue-state classification. -/
inductive QueueState where
  | idle
  | active
  | blocked
deriving DecidableEq

/-- The string constants QueueStateIdle / QueueStateActive / QueueStateBlocked. -/
def QueueState.toLabel : QueueState → String
  | .idle => "idle"
  | .active => "active"
  | .blocked => "blocked"

/-- `Queue.IsDeadLetterQueue`: dead-letter-exchange argument key, or one of
the three exact name suffixes (the Go code length-guards each slice, which is
exactly suffix matching). -/
def Queue.IsDeadLetterQueue (q : Queue) : Bool :=
  if q.argumentKeys.contains "x-dead-letter-exchange" then true
  else if q.name.endsWith ".dlq" then true
  else if q.name.endsWith ".dead" then true
  else if q.name.endsWith ".deadletter" then true
  else false

/-- The inner test of `GetQueueState`'s idle branch: message stats present,
publish details present, and publish rate below 0.01. -/
def lowPublishFlag (ms? : Option MessageStats) : Bool :=
  match ms? with
  | none => false
  | some ms =>
    match ms.publishDetails with
    | none => false
    | some pd => decide (pd.rate < mkRat 1 100)

/-- The inner test of `GetQueueState`'s blocked branch: deliver details
present, deliver rate below 0.1, and publish rate (0 when its details are
absent) above 1.0. -/
def blockedFlag (ms? : Option MessageStats) : Bool :=
  match ms? with
  | none => false
  | some ms =>
    match ms.deliverDetails with
    | none => false
    | some dd =>
      let publishRate : ℚ :=
        match ms.publishDetails with
        | some pd => pd.rate
        | none => 0
      decide (dd.rate < mkRat 1 10 ∧ 1 < publishRate)

/-- `Queue.GetQueueState`, with the Go early returns rewritten as an
else-if chain in the same order. -/
def Queue.GetQueueState (q : Queue) : QueueState :=
  if q.consumers = 0 ∧ q.messages = 0 then .idle
  else if q.consumers = 0 ∧ lowPublishFlag q.messageStats then .idle
  else if 0 < q.consumers ∧ 0 < q.messages ∧ blockedFlag q.messageStats then .blocked
  else .active

/-- `Queue.GetPublishRate`: 0 when the stats or the details are absent. -/
def Queue.GetPublishRate (q : Queue) : ℚ :=
  match q.messageStats with
  | some ms =>
    match ms.publishDetails with
    | some pd => pd.rate
    | none => 0
  | none => 0

/-- `Queue.GetDeliverRate`. -/
def Queue.GetDeliverRate (q : Queue) : ℚ :=
  match q.messageStats with
  | some ms =>
    match ms.deliverDetails with
    | some dd => dd.rate
    | none => 0
  | none => 0

/-- `Queue.GetAckRate`. -/
def Queue.GetAckRate (q : Queue) : ℚ :=
  match q.messageStats with
  | some ms =>
    match ms.ackDetails with
    | some ad => ad.rate
    | none => 0
  | none => 0

/-- `Queue.GetRedeliverRate`. -/
def Queue.GetRedeliverRate (q : Queue) : ℚ :=
  match q.messageStats with
  | some ms =>
    match ms.redeliverDetails with
    | some rd => rd.rate
    | none => 0
  | none => 0

/-- `Queue.GetTotalRedeliveries`. -/
def Queue.GetTotalRedeliveries (q : Queue) : Int :=
  match q.messageStats with
  | some ms => ms.redeliver
  | none => 0

/-- Whether the record carries a publish-rate details object. -/
def Queue.hasPublishDetails (q : Queue) : Bool :=
  match q.messageStats with
  | some ms => ms.publishDetails.isSome
  | none => false

/-- Whether the record carries a deliver-rate details object. -/
def Queue.hasDeliverDetails (q : Queue) : Bool :=
  match q.messageStats with
  | some ms => ms.deliverDetails.isSome
  | none => false

/-- Modelled from the spec: the state classifier exactly as claim C3 words
it, with publish and deliver rates taken as 0 when absent.  Used only to
compare the spec's wording with the source's `GetQueueState`. -/
def specQueueState (q : Queue) : QueueState :=
  if q.consumers = 0 ∧ (q.messages = 0 ∨ q.GetPublishRate < mkRat 1 100) then .idle
  else if 0 < q.consumers ∧ 0 < q.messages ∧ q.GetDeliverRate < mkRat 1 10 ∧ 1 < q.GetPublishRate then .blocked
  else .active

/-- The state classifier as forced by the source: the idle rate test fires
only when publish details are present, and the blocked test only when deliver
details are present. -/
def amendedQueueState (q : Queue) : QueueState :=
  if q.consumers = 0 ∧ (q.messages = 0 ∨ (q.hasPublishDetails ∧ q.GetPublishRate < mkRat 1 100)) then .idle
  else if 0 < q.consumers ∧ 0 < q.messages ∧ q.hasDeliverDetails ∧
      q.GetDeliverRate < mkRat 1 10 ∧ 1 < q.GetPublishRate then .blocked
  else .active

/-! ## Health score (collector.go, calculateHealthMetrics) -/

/-- The health-score computation of `calculateHealthMetrics`, as the same
sequence of conditional deductions followed by the floor clamp. -/
def calculateHealthScore (q : Queue) : ℚ :=
  let h0 : ℚ := 100
  let h1 := if 1000 < q.messages then h0 - 20 else h0
  let h2 := if 10000 < q.messages then h1 - 30 else h1
  let h3 := if q.consumerUtilisation < mkRat 1 10 then h2 - 25 else h2
  let h4 := if q.consumerUtilisation < mkRat 1 100 then h3 - 40 else h3
  let r := q.GetRedeliverRate
  let h5 := if 1 < r then h4 - 15 else h4
  let h6 := if 5 < r then h5 - 25 else h5
  if h6 < 0 then 0 else h6

/-- Closed form of the cumulative deductions of the health score. -/
def healthDeductions (q : Queue) : ℚ :=
  (if 1000 < q.messages then (20 : ℚ) else 0) +
  (if 10000 < q.messages then (30 : ℚ) else 0) +
  (if q.consumerUtilisation < mkRat 1 10 then (25 : ℚ) else 0) +
  (if q.consumerUtilisation < mkRat 1 100 then (40 : ℚ) else 0) +
  (if 1 < q.GetRedeliverRate then (15 : ℚ) else 0) +
  (if 5 < q.GetRedeliverRate then (25 : ℚ) else 0)

/-! ## Metric sink (metrics/definitions.go, prometheus vectors)

A `GaugeVec` is modelled by the list of its currently materialised children,
keyed by their label vector.  `set` on an existing child overwrites its
value, on a fresh label vector it materialises a new child; `Reset` deletes
every child; collecting a vector emits exactly its children. -/

/-- A label vector, in the declaration order of the metric's label names. -/
abbrev Labels := List String

/-- A prometheus GaugeVec: materialised children with their current values. -/
structure GaugeVec where
  entries : List (Labels × ℚ) := []
deriving DecidableEq

/-- `WithLabelValues(...).Set(v)`. -/
def GaugeVec.set (g : GaugeVec) (ls : Labels) (v : ℚ) : GaugeVec :=
  if ls ∈ g.entries.map Prod.fst then
    ⟨g.entries.map (fun e => if e.1 = ls then (ls, v) else e)⟩
  else
    ⟨g.entries ++ [(ls, v)]⟩

/-- `GaugeVec.Reset()`: all children deleted. -/
def GaugeVec.reset (_ : GaugeVec) : GaugeVec := ⟨[]⟩

/-- The value of the child with the given labels, if materialised. -/
def GaugeVec.lookup (g : GaugeVec) (ls : Labels) : Option ℚ :=
  (g.entries.find? (fun e => decide (e.1 = ls))).map Prod.snd

/-- A prometheus CounterVec: materialised children with their current sums. -/
structure CounterVec where
  entries : List (Labels × ℚ) := []
deriving DecidableEq

/-- `WithLabelValues(...).Add(v)`. -/
def CounterVec.add (c : CounterVec) (ls : Labels) (v : ℚ) : CounterVec :=
  if ls ∈ c.entries.map Prod.fst then
    ⟨c.entries.map (fun e => if e.1 = ls then (ls, e.2 + v) else e)⟩
  else
    ⟨c.entries ++ [(ls, v)]⟩

/-- `WithLabelValues(...).Inc()`. -/
def CounterVec.inc (c : CounterVec) (ls : Labels) : CounterVec := c.add ls 1

/-- The value of the counter child with the given labels, if materialised. -/
def CounterVec.lookup (c : CounterVec) (ls : Labels) : Option ℚ :=
  (c.entries.find? (fun e => decide (e.1 = ls))).map Prod.snd

/-- The `Metrics` struct: one field per registered family. -/
structure Metrics where
  queueMessages : GaugeVec := {}
  queueMessagesReady : GaugeVec := {}
  queueMessagesUnacknowledged : GaugeVec := {}
  queueMessagePublishRate : GaugeVec := {}
  queueMessageDeliverRate : GaugeVec := {}
  queueMessageAckRate : GaugeVec := {}
  queueMessageRedeliverRate : GaugeVec := {}
  queueConsumers : GaugeVec := {}
  queueConsumerUtilisation : GaugeVec := {}
  queueConsumerCapacity : GaugeVec := {}
  queueState : GaugeVec := {}
  queueIsDeadLetter : GaugeVec := {}
  queueHealthScore : GaugeVec := {}
  queueDepthAlert : GaugeVec := {}
  queueUtilizationAlert : GaugeVec := {}
  scrapeDurationSeconds : ℚ := 0
  scrapeErrorsTotal : CounterVec := {}
  circuitBreakerState : GaugeVec := {}
  circuitBreakerFailures : CounterVec := {}
deriving DecidableEq

/-- `Metrics.ResetQueueMetrics`: resets exactly the fifteen queue-scoped
gauge vectors returned by `GetQueueCollectors`; the scrape, error and
circuit-breaker families are untouched. -/
def ResetQueueMetrics (m : Metrics) : Metrics :=
  { m with
    queueMessages := m.queueMessages.reset
    queueMessagesReady := m.queueMessagesReady.reset
    queueMessagesUnacknowledged := m.queueMessagesUnacknowledged.reset
    queueMessagePublishRate := m.queueMessagePublishRate.reset
    queueMessageDeliverRate := m.queueMessageDeliverRate.reset
    queueMessageAckRate := m.queueMessageAckRate.reset
    queueMessageRedeliverRate := m.queueMessageRedeliverRate.reset
    queueConsumers := m.queueConsumers.reset
    queueConsumerUtilisation := m.queueConsumerUtilisation.reset
    queueConsumerCapacity := m.queueConsumerCapacity.reset
    queueState := m.queueState.reset
    queueIsDeadLetter := m.queueIsDeadLetter.reset
    queueHealthScore := m.queueHealthScore.reset
    queueDepthAlert := m.queueDepthAlert.reset
    queueUtilizationAlert := m.queueUtilizationAlert.reset }

/-! ## Derived-metrics rendering (collector.go) -/

/-- `Collector.calculateHealthMetrics`: health score plus the four
always-emitted alert children. -/
def calculateHealthMetrics (q : Queue) (labels : Labels) (m : Metrics) : Metrics :=
  let m := { m with queueHealthScore := m.queueHealthScore.set labels (calculateHealthScore q) }
  let m := { m with queueDepthAlert :=
    m.queueDepthAlert.set (labels ++ ["warning"]) (if 1000 < q.messages then 1 else 0) }
  let m := { m with queueDepthAlert :=
    m.queueDepthAlert.set (labels ++ ["critical"]) (if 10000 < q.messages then 1 else 0) }
  let m := { m with queueUtilizationAlert :=
    m.queueUtilizationAlert.set (labels ++ ["warning"]) (if q.consumerUtilisation < mkRat 1 10 then 1 else 0) }
  let m := { m with queueUtilizationAlert :=
    m.queueUtilizationAlert.set (labels ++ ["critical"]) (if q.consumerUtilisation < mkRat 1 100 then 1 else 0) }
  m

/-- `Collector.updateQueueMetrics`: one bundle of queue-scoped measurements
for a single record, in source order. -/
def updateQueueMetrics (q : Queue) (m : Metrics) : Metrics :=
  let stateStr := q.GetQueueState.toLabel
  let labels : Labels := [q.name, q.vhost]
  let m := { m with queueMessages := m.queueMessages.set (labels ++ [stateStr]) (q.messages : ℚ) }
  let m := { m with queueMessagesReady := m.queueMessagesReady.set labels (q.messagesReady : ℚ) }
  let m := { m with queueMessagesUnacknowledged :=
    m.queueMessagesUnacknowledged.set labels (q.messagesUnacknowledged : ℚ) }
  let m := { m with queueMessagePublishRate := m.queueMessagePublishRate.set labels q.GetPublishRate }
  let m := { m with queueMessageDeliverRate := m.queueMessageDeliverRate.set labels q.GetDeliverRate }
  let m := { m with queueMessageAckRate := m.queueMessageAckRate.set labels q.GetAckRate }
  let m := { m with queueMessageRedeliverRate := m.queueMessageRedeliverRate.set labels q.GetRedeliverRate }
  let m := { m with queueConsumers := m.queueConsumers.set labels (q.consumers : ℚ) }
  let m := { m with queueConsumerUtilisation := m.queueConsumerUtilisation.set labels q.consumerUtilisation }
  let m := { m with queueConsumerCapacity := m.queueConsumerCapacity.set labels q.consumerUtilisation }
  let m := ["idle", "active", "blocked"].foldl (fun m s =>
    { m with queueState := m.queueState.set (labels ++ [s]) (if s = stateStr then 1 else 0) }) m
  let m := { m with queueIsDeadLetter :=
    m.queueIsDeadLetter.set labels (if q.IsDeadLetterQueue then 1 else 0) }
  calculateHealthMetrics q labels m

/-! ## Circuit breaker (rabbitmq/client.go) -/

/-- `Client.maxFailures` as set by `NewClient`. -/
def maxFailures : Nat := 5

/-- `Client.resetTimeout` in seconds as set by `NewClient`. -/
def resetTimeout : Nat := 60

/-- The breaker-relevant mutable fields of `Client`.  Timestamps are seconds
since process start; the Go zero values are the defaults. -/
structure ClientState where
  failureCount : Nat := 0
  lastFailureTime : Nat := 0
  circuitOpen : Bool := false
deriving DecidableEq

/-- `Client.isCircuitOpen`, with its lazy cool-down reset; returns the
answer together with the possibly reset state.  `allowRequest()` of the spec
is the negation of the returned flag. -/
def isCircuitOpen (s : ClientState) (now : Nat) : Bool × ClientState :=
  if s.circuitOpen = false then (false, s)
  else if resetTimeout < now - s.lastFailureTime then
    (false, { s with circuitOpen := false, failureCount := 0 })
  else (true, s)

/-- `Client.recordFailure`. -/
def recordFailure (s : ClientState) (now : Nat) : ClientState :=
  let fc := s.failureCount + 1
  { failureCount := fc
    lastFailureTime := now
    circuitOpen := if maxFailures ≤ fc then true else s.circuitOpen }

/-- `Client.recordSuccess`. -/
def recordSuccess (s : ClientState) : ClientState :=
  { s with failureCount := 0, circuitOpen := false }

/-- `Client.GetCircuitBreakerStatus`. -/
def GetCircuitBreakerStatus (s : ClientState) : Bool × Nat × Nat :=
  (s.circuitOpen, s.failureCount, s.lastFailureTime)

/-- The breaker states producible by the client's own operations, starting
from `NewClient`'s zero value. -/
inductive CBReachable : ClientState → Prop where
  | init : CBReachable {}
  | fail {s : ClientState} (now : Nat) : CBReachable s → CBReachable (recordFailure s now)
  | success {s : ClientState} : CBReachable s → CBReachable (recordSuccess s)
  | query {s : ClientState} (now : Nat) : CBReachable s → CBReachable (isCircuitOpen s now).2

/-! ## Upstream client calls (rabbitmq/client.go)

The network is an oracle: what request construction, each of the two HTTP
attempts, the body read, and the JSON decode would yield.  Every branch of
`GetQueues` / `HealthCheck` is mirrored, and each call additionally returns
the list of breaker-accounting calls it performed, in order. -/

/-- Error kinds a `GetQueues` call can return. -/
inductive FetchError where
  | circuitOpen
  | requestCreate
  | ctxCanceled
  | transport
  | readBody
  | httpStatus (code : Nat)
  | decode
deriving DecidableEq

/-- A breaker-accounting call performed by a client method. -/
inductive BreakerEvent where
  | recFailure
  | recSuccess
deriving DecidableEq

/-- What one successful HTTP round trip would look like: status code,
whether reading the (10 MiB limited) body fails, and what the body decodes
to as a queue list, if anything. -/
structure HttpResp where
  status : Nat := 200
  bodyReadFails : Bool := false
  decoded : Option (List Queue) := none
deriving DecidableEq

/-- Oracle for a `GetQueues` call: `none` for an attempt means a
transport-level error from `httpClient.Do`. -/
structure NetBehavior where
  reqCreateFails : Bool := false
  attempt0 : Option HttpResp := none
  ctxCanceledDuringBackoff : Bool := false
  attempt1 : Option HttpResp := none
deriving DecidableEq

/-- The common tail of `GetQueues` once a response was obtained: read the
body, check the status, decode the queue list.  (Whether a non-200 body
parses as the broker's structured error only changes the error message, not
the control flow, so the two sub-cases are one `httpStatus` error here.) -/
def handleResp (s : ClientState) (now : Nat) (resp : HttpResp) :
    Except FetchError (List Queue) × ClientState × List BreakerEvent :=
  if resp.bodyReadFails then (.error .readBody, recordFailure s now, [.recFailure])
  else if resp.status ≠ 200 then (.error (.httpStatus resp.status), recordFailure s now, [.recFailure])
  else
    match resp.decoded with
    | none => (.error .decode, recordFailure s now, [.recFailure])
    | some qs => (.ok qs, recordSuccess s, [.recSuccess])

/-- `Client.GetQueues`: breaker gate, request construction, at most two
attempts with a backoff whose wait races context cancellation, then the
response handling.  Returns result, final breaker state and the breaker
events recorded. -/
def GetQueues (s : ClientState) (now : Nat) (net : NetBehavior) :
    Except FetchError (List Queue) × ClientState × List BreakerEvent :=
  let p := isCircuitOpen s now
  if p.1 then (.error .circuitOpen, p.2, [])
  else if net.reqCreateFails then (.error .requestCreate, recordFailure p.2 now, [.recFailure])
  else
    match net.attempt0 with
    | some resp => handleResp p.2 now resp
    | none =>
      if net.ctxCanceledDuringBackoff then (.error .ctxCanceled, p.2, [])
      else
        match net.attempt1 with
        | some resp => handleResp p.2 now resp
        | none => (.error .transport, recordFailure p.2 now, [.recFailure])

/-- Error kinds a `HealthCheck` call can return. -/
inductive HealthError where
  | circuitOpen
  | requestCreate
  | transport
  | httpStatus (code : Nat)
deriving DecidableEq

/-- Oracle for a `HealthCheck` call: `none` means a transport-level error,
`some code` an HTTP response with that status. -/
structure HealthNet where
  reqCreateFails : Bool := false
  resp : Option Nat := none
deriving DecidableEq

/-- `Client.HealthCheck`: breaker gate, single attempt, status check. -/
def HealthCheck (s : ClientState) (now : Nat) (net : HealthNet) :
    Except HealthError Unit × ClientState × List BreakerEvent :=
  let p := isCircuitOpen s now
  if p.1 then (.error .circuitOpen, p.2, [])
  else if net.reqCreateFails then (.error .requestCreate, recordFailure p.2 now, [.recFailure])
  else
    match net.resp with
    | none => (.error .transport, recordFailure p.2 now, [.recFailure])
    | some code =>
      if code ≠ 200 then (.error (.httpStatus code), recordFailure p.2 now, [.recFailure])
      else (.ok (), recordSuccess p.2, [.recSuccess])

/-- Replaying a recorded breaker-event list against a state. -/
def applyEvents (s : ClientState) (now : Nat) (evs : List BreakerEvent) : ClientState :=
  evs.foldl (fun s e =>
    match e with
    | .recFailure => recordFailure s now
    | .recSuccess => recordSuccess s) s

/-! ## Collector: snapshot cache, background poll, scrape (collector.go) -/

/-- The cache fields of `Collector`; `NewCollector` leaves them at the Go
zero values (empty, invalid).  `scrapeInterval` is the poll interval. -/
structure CollectorState where
  scrapeInterval : Nat
  lastScrape : Nat := 0
  cachedQueues : List Queue := []
  cacheTimestamp : Nat := 0
  cacheValid : Bool := false
  collectionError : Option FetchError := none
deriving DecidableEq

/-- The whole core: client breaker state, snapshot cache, metric sink. -/
structure SysState where
  client : ClientState
  coll : CollectorState
  metrics : Metrics
deriving DecidableEq

/-- `Collector.updateCircuitBreakerMetrics`. -/
def updateCircuitBreakerMetrics (cs : ClientState) (m : Metrics) : Metrics :=
  let st := GetCircuitBreakerStatus cs
  let stateVal : ℚ := if st.1 then 1 else 0
  { m with
    circuitBreakerState := m.circuitBreakerState.set ["rabbitmq_api"] stateVal
    circuitBreakerFailures := m.circuitBreakerFailures.add ["rabbitmq_api"] (st.2.1 : ℚ) }

/-- `Collector.collectQueueData`, one background poll cycle: call
`GetQueues`; on failure store the error and invalidate the cache, leaving
records and timestamp untouched; on success replace records, stamp the
cache, and refresh the circuit-breaker families.  (The rate-limited failure
log has no modelled effect.) -/
def collectQueueData (s : SysState) (now : Nat) (net : NetBehavior) : SysState :=
  let r := GetQueues s.client now net
  match r.1 with
  | .error e =>
    { s with
      client := r.2.1
      coll := { s.coll with collectionError := some e, cacheValid := false } }
  | .ok qs =>
    let client := r.2.1
    let coll := { s.coll with
      cachedQueues := qs
      cacheTimestamp := now
      cacheValid := true
      collectionError := none
      lastScrape := now }
    { client := client, coll := coll, metrics := updateCircuitBreakerMetrics client s.metrics }

/-- `Collector.Collect`, one scrape: reset the queue-scoped families, take a
consistent cache read, and either return after the staleness accounting or
render every cached record.  The in-scrape elapsed time is not modelled, so
the duration gauge is set to 0. -/
def Collect (c : CollectorState) (m : Metrics) (now : Nat) : Metrics :=
  let m := ResetQueueMetrics m
  if c.cacheValid = false ∨ 2 * c.scrapeInterval < now - c.cacheTimestamp then
    let m :=
      if c.collectionError.isSome then
        { m with scrapeErrorsTotal := m.scrapeErrorsTotal.inc ["api_error"] }
      else m
    { m with scrapeDurationSeconds := 0 }
  else
    let m := c.cachedQueues.foldl (fun m q => updateQueueMetrics q m) m
    { m with scrapeDurationSeconds := 0 }

/-- One scrape request against the system. -/
def scrapeStep (s : SysState) (now : Nat) : SysState :=
  { s with metrics := Collect s.coll s.metrics now }

/-- One call to the `/health` endpoint (touches only the breaker). -/
def healthStep (s : SysState) (now : Nat) (net : HealthNet) : SysState :=
  { s with client := (HealthCheck s.client now net).2.1 }

/-- The client state produced by `NewClient`. -/
def initClient : ClientState := {}

/-- The collector produced by `NewCollector` for a given poll interval. -/
def initCollector (interval : Nat) : CollectorState := { scrapeInterval := interval }

/-- The system right after startup, with an empty metric registry. -/
def initSys (interval : Nat) : SysState :=
  { client := initClient, coll := initCollector interval, metrics := {} }

/-- The states the running system can be in: startup followed by any
interleaving of background polls, scrapes and health checks. -/
inductive Reachable (interval : Nat) : SysState → Prop where
  | init : Reachable interval (initSys interval)
  | poll {s : SysState} (now : Nat) (net : NetBehavior) :
      Reachable interval s → Reachable interval (collectQueueData s now net)
  | scrape {s : SysState} (now : Nat) :
      Reachable interval s → Reachable interval (scrapeStep s now)
  | health {s : SysState} (now : Nat) (net : HealthNet) :
      Reachable interval s → Reachable interval (healthStep s now net)

/-! ## Helper lemmas -/

/-- Reordering the source's early returns into the flat, spec-style
conditions: the classifier's idle rate test needs publish details present
and the blocked test needs deliver details present. -/
theorem getQueueState_eq_amended (q : Queue) : q.GetQueueState = amendedQueueState q := by
  obtain ⟨n, v, msgs, mr, mu, cons, util, ms, args, st, idl⟩ := q
  unfold Queue.GetQueueState amendedQueueState Queue.hasPublishDetails Queue.hasDeliverDetails
    Queue.GetPublishRate Queue.GetDeliverRate lowPublishFlag blockedFlag
  rcases ms with _ | ⟨pub, pd, del, dd, ack, ad, red, rd⟩
  · simp
  · rcases pd with _ | ⟨pr⟩ <;> rcases dd with _ | ⟨dr⟩ <;>
      simp <;> split_ifs <;> first | rfl | tauto

set_option maxHeartbeats 1600000 in
/-- The sequence of conditional deductions with the final floor clamp equals
100 minus the cumulative deductions, clamped below at 0. -/
theorem healthScore_eq_clamped (q : Queue) :
    calculateHealthScore q = max 0 (100 - healthDeductions q) := by
  have key : ∀ x : ℚ, (if x < 0 then (0 : ℚ) else x) = max 0 x := by
    intro x
    rcases lt_or_le x 0 with h | h
    · rw [if_pos h, max_eq_left h.le]
    · rw [if_neg (not_lt.mpr h), max_eq_right h]
  rw [← key]
  simp only [calculateHealthScore, healthDeductions]
  split_ifs <;> linarith

/-- A single conditional deduction is monotone under implication of its
trigger condition. -/
theorem ite_deduction_mono {P Q : Prop} [Decidable P] [Decidable Q] {c : ℚ}
    (hc : 0 ≤ c) (h : P → Q) : (if P then c else 0) ≤ (if Q then c else 0) := by
  by_cases hP : P
  · rw [if_pos hP, if_pos (h hP)]
  · rw [if_neg hP]
    split_ifs
    · exact hc
    · exact le_refl 0

/-- The cumulative deductions grow when messages or the redeliver rate grow
or the utilisation shrinks. -/
theorem healthDeductions_mono {q q' : Queue}
    (hm : q.messages ≤ q'.messages)
    (hu : q'.consumerUtilisation ≤ q.consumerUtilisation)
    (hr : q.GetRedeliverRate ≤ q'.GetRedeliverRate) :
    healthDeductions q ≤ healthDeductions q' := by
  unfold healthDeductions
  have t1 : (1000 : Int) < q.messages → (1000 : Int) < q'.messages :=
    fun h => lt_of_lt_of_le h hm
  have t2 : (10000 : Int) < q.messages → (10000 : Int) < q'.messages :=
    fun h => lt_of_lt_of_le h hm
  have t3 : q.consumerUtilisation < mkRat 1 10 → q'.consumerUtilisation < mkRat 1 10 :=
    fun h => lt_of_le_of_lt hu h
  have t4 : q.consumerUtilisation < mkRat 1 100 → q'.consumerUtilisation < mkRat 1 100 :=
    fun h => lt_of_le_of_lt hu h
  have t5 : (1 : ℚ) < q.GetRedeliverRate → (1 : ℚ) < q'.GetRedeliverRate :=
    fun h => lt_of_lt_of_le h hr
  have t6 : (5 : ℚ) < q.GetRedeliverRate → (5 : ℚ) < q'.GetRedeliverRate :=
    fun h => lt_of_lt_of_le h hr
  exact add_le_add (add_le_add (add_le_add (add_le_add (add_le_add
    (ite_deduction_mono (by norm_num) t1) (ite_deduction_mono (by norm_num) t2))
    (ite_deduction_mono (by norm_num) t3)) (ite_deduction_mono (by norm_num) t4))
    (ite_deduction_mono (by norm_num) t5)) (ite_deduction_mono (by norm_num) t6)

/-- In every state the client's own breaker operations can produce, an open
breaker implies the failure count has reached the threshold. -/
theorem cbReachable_open_threshold {s : ClientState} (h : CBReachable s) :
    s.circuitOpen = true → maxFailures ≤ s.failureCount := by
  induction h with
  | init => intro ho; simp at ho
  | fail now _ ih =>
    intro ho
    simp only [recordFailure] at ho ⊢
    split_ifs at ho with hf
    · exact hf
    · exact Nat.le_succ_of_le (ih ho)
  | success _ ih => intro ho; simp [recordSuccess] at ho
  | query now _ ih =>
    intro ho
    unfold isCircuitOpen at ho ⊢
    split_ifs at ho ⊢ <;> exact ih ho

/-- Every path through the response handling either succeeds recording one
success, or fails with a non-gate, non-cancellation error recording one
failure. -/
theorem handleResp_shape (s : ClientState) (now : Nat) (resp : HttpResp) :
    (∃ qs, handleResp s now resp = (.ok qs, recordSuccess s, [.recSuccess])) ∨
    (∃ e, e ≠ FetchError.circuitOpen ∧ e ≠ FetchError.ctxCanceled ∧
      handleResp s now resp = (.error e, recordFailure s now, [.recFailure])) := by
  rcases resp with ⟨st, brf, dec⟩
  cases brf
  · by_cases hst : st = 200
    · subst hst
      cases dec with
      | none => exact Or.inr ⟨.decode, by simp, by simp, by simp [handleResp]⟩
      | some qs => exact Or.inl ⟨qs, by simp [handleResp]⟩
    · exact Or.inr ⟨.httpStatus st, by simp, by simp, by simp [handleResp, hst]⟩
  · exact Or.inr ⟨.readBody, by simp, by simp, by simp [handleResp]⟩

/-- Every path through `GetQueues` falls into exactly one of three shapes:
success with one recorded success; a failure other than the gate rejection
and the backoff cancellation, with one recorded failure; or one of those two
early returns, with no breaker event and the breaker state untouched beyond
the gate's own lazy reset. -/
theorem getQueues_shape (s : ClientState) (now : Nat) (net : NetBehavior) :
    (∃ qs, GetQueues s now net =
      (.ok qs, recordSuccess (isCircuitOpen s now).2, [.recSuccess])) ∨
    (∃ e, e ≠ FetchError.circuitOpen ∧ e ≠ FetchError.ctxCanceled ∧
      GetQueues s now net =
        (.error e, recordFailure (isCircuitOpen s now).2 now, [.recFailure])) ∨
    (((GetQueues s now net).1 = .error .circuitOpen ∨
        (GetQueues s now net).1 = .error .ctxCanceled) ∧
      GetQueues s now net = ((GetQueues s now net).1, (isCircuitOpen s now).2, [])) := by
  rcases net with ⟨rc, a0, cx, a1⟩
  by_cases hp : (isCircuitOpen s now).1 = true
  · refine Or.inr (Or.inr ⟨Or.inl ?_, ?_⟩) <;> simp [GetQueues, hp]
  · rw [Bool.not_eq_true] at hp
    cases rc
    · cases a0 with
      | some resp =>
        have hs : GetQueues s now ⟨false, some resp, cx, a1⟩ =
            handleResp (isCircuitOpen s now).2 now resp := by
          simp [GetQueues, hp]
        rcases handleResp_shape (isCircuitOpen s now).2 now resp with ⟨qs, hh⟩ | ⟨e, h1, h2, hh⟩
        · exact Or.inl ⟨qs, hs.trans hh⟩
        · exact Or.inr (Or.inl ⟨e, h1, h2, hs.trans hh⟩)
      | none =>
        cases cx
        · cases a1 with
          | some resp =>
            have hs : GetQueues s now ⟨false, none, false, some resp⟩ =
                handleResp (isCircuitOpen s now).2 now resp := by
              simp [GetQueues, hp]
            rcases handleResp_shape (isCircuitOpen s now).2 now resp with
              ⟨qs, hh⟩ | ⟨e, h1, h2, hh⟩
            · exact Or.inl ⟨qs, hs.trans hh⟩
            · exact Or.inr (Or.inl ⟨e, h1, h2, hs.trans hh⟩)
          | none =>
            exact Or.inr (Or.inl ⟨.transport, by simp, by simp, by simp [GetQueues, hp]⟩)
        · refine Or.inr (Or.inr ⟨Or.inr ?_, ?_⟩) <;> simp [GetQueues, hp]
    · exact Or.inr (Or.inl ⟨.requestCreate, by simp, by simp, by simp [GetQueues, hp]⟩)

/-! ## Claim theorems -/

/-- Claim C3, counterexample: the claim takes absent rates as 0, which makes
a consumer-less queue with 5 messages and no message stats idle; the source
classifies it active because its idle rate test requires publish details to
be present. -/
theorem C3_counterexample :
    Queue.GetQueueState { consumers := 0, messages := 5 } = QueueState.active ∧
    specQueueState { consumers := 0, messages := 5 } = QueueState.idle := by
  decide

/-- Claim C3, amended: the derived state is idle iff consumers=0 and
(messages=0 or publish details are present with rate below 0.01); blocked
iff consumers>0, messages>0, deliver details are present with rate below 0.1
and the publish rate (0 when its details are absent) exceeds 1.0; otherwise
active.  The claim's three concrete examples hold as stated. -/
theorem C3_state_classification :
    (∀ q : Queue, q.GetQueueState = amendedQueueState q) ∧
    Queue.GetQueueState { consumers := 0, messages := 0 } = QueueState.idle ∧
    Queue.GetQueueState
      { consumers := 2
        messages := 10
        messageStats := some { deliverDetails := some { rate := 5 } } } = QueueState.active ∧
    Queue.GetQueueState
      { consumers := 1
        messages := 15
        messageStats := some { deliverDetails := some { rate := 0 }
                               publishDetails := some { rate := 5 } } } = QueueState.blocked :=
  ⟨getQueueState_eq_amended, by decide, by decide, by decide⟩

/-- Claim C8: the health score equals 100 minus the cumulative deductions
clamped below at exactly 0, is never negative, and is monotonically
non-increasing as messages or the redeliver rate grow or the utilisation
shrinks. -/
theorem C8_health_score (q q' : Queue) :
    calculateHealthScore q = max 0 (100 - healthDeductions q) ∧
    0 ≤ calculateHealthScore q ∧
    (q.messages ≤ q'.messages → q'.consumerUtilisation ≤ q.consumerUtilisation →
      q.GetRedeliverRate ≤ q'.GetRedeliverRate →
      calculateHealthScore q' ≤ calculateHealthScore q) := by
  refine ⟨healthScore_eq_clamped q, ?_, ?_⟩
  · rw [healthScore_eq_clamped]
    exact le_max_left 0 _
  · intro hm hu hr
    rw [healthScore_eq_clamped, healthScore_eq_clamped]
    exact max_le_max (le_refl 0) (by linarith [healthDeductions_mono hm hu hr])

/-- Claim C8, witness: the empty record against one with 2000 messages. -/
theorem C8_health_score_witness :
    ({} : Queue).messages ≤ ({ messages := 2000 } : Queue).messages ∧
    calculateHealthScore { messages := 2000 } ≤ calculateHealthScore ({} : Queue) :=
  ⟨by decide, (C8_health_score {} { messages := 2000 }).2.2 (by decide) (by decide) (by decide)⟩

/-- Claim C10: the rate accessors and the total-redeliveries accessor return
0 whenever the message-stats substructure or the specific details field is
absent, so they are defined on every record. -/
theorem C10_rates_total (q : Queue) (ms : MessageStats) :
    (q.messageStats = none →
      q.GetPublishRate = 0 ∧ q.GetDeliverRate = 0 ∧ q.GetAckRate = 0 ∧
      q.GetRedeliverRate = 0 ∧ q.GetTotalRedeliveries = 0) ∧
    (q.messageStats = some ms →
      (ms.publishDetails = none → q.GetPublishRate = 0) ∧
      (ms.deliverDetails = none → q.GetDeliverRate = 0) ∧
      (ms.ackDetails = none → q.GetAckRate = 0) ∧
      (ms.redeliverDetails = none → q.GetRedeliverRate = 0)) := by
  constructor
  · intro h
    simp [Queue.GetPublishRate, Queue.GetDeliverRate, Queue.GetAckRate,
      Queue.GetRedeliverRate, Queue.GetTotalRedeliveries, h]
  · intro h
    refine ⟨fun hp => ?_, fun hd => ?_, fun ha => ?_, fun hr => ?_⟩ <;>
      simp [Queue.GetPublishRate, Queue.GetDeliverRate, Queue.GetAckRate,
        Queue.GetRedeliverRate, h, *]

/-- Claim C10, witness: a record without message stats and one whose stats
carry no details objects. -/
theorem C10_rates_total_witness :
    Queue.GetPublishRate {} = 0 ∧ Queue.GetTotalRedeliveries {} = 0 ∧
    Queue.GetDeliverRate { messageStats := some {} } = 0 :=
  ⟨((C10_rates_total {} {}).1 rfl).1,
   ((C10_rates_total {} {}).1 rfl).2.2.2.2,
   ((C10_rates_total { messageStats := some {} } {}).2 rfl).2.1 rfl⟩

/-- Claim C5: in every reachable breaker state with fewer than 5 consecutive
failures the gate allows the request; a `recordFailure` that reaches the
threshold opens the breaker and the gate rejects until more than the 60s
cool-down has passed since that failure; once the cool-down has elapsed the
next gate check returns allowed, resets the count to 0 and the open flag to
false, and is idempotent thereafter.  (`allowRequest` of the spec is the
negation of `isCircuitOpen`.) -/
theorem C5_circuit_breaker (s : ClientState) (now : Nat) :
    (CBReachable s → s.failureCount < maxFailures → (isCircuitOpen s now).1 = false) ∧
    (∀ t, maxFailures ≤ (recordFailure s t).failureCount →
      (recordFailure s t).circuitOpen = true ∧
      ∀ n, n - t ≤ resetTimeout → (isCircuitOpen (recordFailure s t) n).1 = true) ∧
    (s.circuitOpen = true → resetTimeout < now - s.lastFailureTime →
      isCircuitOpen s now = (false, { s with circuitOpen := false, failureCount := 0 }) ∧
      ∀ n, isCircuitOpen (isCircuitOpen s now).2 n = (false, (isCircuitOpen s now).2)) := by
  refine ⟨?_, ?_, ?_⟩
  · intro hr hf
    have hclosed : s.circuitOpen = false := by
      rcases hb : s.circuitOpen with _ | _
      · rfl
      · exact absurd (cbReachable_open_threshold hr hb) (Nat.not_le.mpr hf)
    simp [isCircuitOpen, hclosed]
  · intro t hle
    have hle' : maxFailures ≤ s.failureCount + 1 := hle
    have hopen : (recordFailure s t).circuitOpen = true := by
      simp only [recordFailure]
      rw [if_pos hle']
    refine ⟨hopen, fun n hn => ?_⟩
    simp only [isCircuitOpen, hopen]
    rw [if_neg (by simp), if_neg (by simp only [recordFailure]; omega)]
  · intro ho helap
    have hres : isCircuitOpen s now =
        (false, { s with circuitOpen := false, failureCount := 0 }) := by
      simp only [isCircuitOpen, ho]
      rw [if_neg (by simp), if_pos helap]
    refine ⟨hres, fun n => ?_⟩
    rw [hres]
    simp [isCircuitOpen]

/-- Claim C5, witness: the fresh client is allowed; a fifth failure at t=7
opens the breaker, which still rejects at t=50 and resets at t=100. -/
theorem C5_circuit_breaker_witness :
    (isCircuitOpen initClient 3).1 = false ∧
    (recordFailure ⟨4, 0, false⟩ 7).circuitOpen = true ∧
    (isCircuitOpen (recordFailure ⟨4, 0, false⟩ 7) 50).1 = true ∧
    isCircuitOpen ⟨5, 2, true⟩ 100 = (false, ⟨0, 2, false⟩) := by
  refine ⟨(C5_circuit_breaker initClient 3).1 CBReachable.init (by decide), ?_, ?_, ?_⟩
  · exact ((C5_circuit_breaker ⟨4, 0, false⟩ 0).2.1 7 (by decide)).1
  · exact ((C5_circuit_breaker ⟨4, 0, false⟩ 0).2.1 7 (by decide)).2 50 (by decide)
  · exact ((C5_circuit_breaker ⟨5, 2, true⟩ 100).2.2 rfl (by decide)).1

/-- Claim C7: while the breaker is open and the cool-down has not elapsed,
`GetQueues` and `HealthCheck` reject immediately with the circuit-open error,
independently of any network behaviour, leaving the breaker state exactly as
it was and recording no breaker event (in particular the failure count is
not incremented). -/
theorem C7_open_rejection (s : ClientState) (now : Nat) (net : NetBehavior) (hn : HealthNet)
    (ho : s.circuitOpen = true) (hc : now - s.lastFailureTime ≤ resetTimeout) :
    GetQueues s now net = (.error .circuitOpen, s, []) ∧
    HealthCheck s now hn = (.error .circuitOpen, s, []) := by
  have hiso : isCircuitOpen s now = (true, s) := by
    simp only [isCircuitOpen, ho]
    rw [if_neg (by simp), if_neg (by omega)]
  constructor
  · simp [GetQueues, hiso]
  · simp [HealthCheck, hiso]

/-- Claim C7, witness: an open breaker with the last failure at t=0,
queried at t=10. -/
theorem C7_open_rejection_witness :
    GetQueues ⟨5, 0, true⟩ 10 {} = (.error .circuitOpen, ⟨5, 0, true⟩, []) ∧
    HealthCheck ⟨5, 0, true⟩ 10 {} = (.error .circuitOpen, ⟨5, 0, true⟩, []) :=
  C7_open_rejection ⟨5, 0, true⟩ 10 {} {} rfl (by decide)

/-- Claim C4, counterexample: a transport failure on the first attempt
followed by context cancellation during the retry backoff is a terminal
failure that is not a circuit-open rejection, yet `GetQueues` returns it
with no breaker-accounting call at all and the breaker state unchanged. -/
theorem C4_counterexample :
    (GetQueues {} 0 { attempt0 := none, ctxCanceledDuringBackoff := true }).1 =
      Except.error FetchError.ctxCanceled ∧
    (GetQueues {} 0 { attempt0 := none, ctxCanceledDuringBackoff := true }).2.2 = [] ∧
    (GetQueues {} 0 { attempt0 := none, ctxCanceledDuringBackoff := true }).2.1 = {} :=
  ⟨rfl, rfl, rfl⟩

/-- Claim C4, amended: every terminal outcome of `GetQueues` other than a
circuit-open rejection and other than a context cancellation hit during the
retry backoff is reported to the breaker by exactly one `recordSuccess` (on
success) or `recordFailure` (on failure) before returning; the two excluded
early returns record nothing. -/
theorem C4_outcome_reporting (s : ClientState) (now : Nat) (net : NetBehavior) :
    (∀ qs, (GetQueues s now net).1 = .ok qs →
      (GetQueues s now net).2.2 = [.recSuccess] ∧
      (GetQueues s now net).2.1 = recordSuccess (isCircuitOpen s now).2) ∧
    (∀ e, (GetQueues s now net).1 = .error e →
      e ≠ .circuitOpen → e ≠ .ctxCanceled →
      (GetQueues s now net).2.2 = [.recFailure] ∧
      (GetQueues s now net).2.1 = recordFailure (isCircuitOpen s now).2 now) ∧
    ((GetQueues s now net).1 = .error .circuitOpen ∨
        (GetQueues s now net).1 = .error .ctxCanceled →
      (GetQueues s now net).2.2 = []) := by
  rcases getQueues_shape s now net with ⟨qs, hsh⟩ | ⟨e, he1, he2, hsh⟩ | ⟨hres, hsh⟩
  · refine ⟨fun qs' h => by rw [hsh]; exact ⟨rfl, rfl⟩, fun e h h1 h2 => ?_, fun h => ?_⟩
    · rw [hsh] at h; simp at h
    · rcases h with h | h <;> (rw [hsh] at h; simp at h)
  · refine ⟨fun qs' h => ?_, fun e' h h1 h2 => by rw [hsh]; exact ⟨rfl, rfl⟩, fun h => ?_⟩
    · rw [hsh] at h; simp at h
    · rcases h with h | h <;> (rw [hsh] at h; simp at h) <;> subst h <;> simp at *
  · refine ⟨fun qs' h => ?_, fun e' h h1 h2 => ?_, fun h => by rw [hsh]⟩
    · rcases hres with hr | hr <;> (rw [hr] at h; simp at h)
    · rcases hres with hr | hr <;> (rw [hr] at h; injection h with h; subst h)
      · exact absurd rfl h1
      · exact absurd rfl h2

/-- Claim C4, witness: a successful call records exactly one success; a
double transport failure records exactly one failure. -/
theorem C4_outcome_reporting_witness :
    (GetQueues {} 0 { attempt0 := some { decoded := some [] } }).2.2 = [.recSuccess] ∧
    (GetQueues {} 0 {}).2.2 = [.recFailure] :=
  ⟨((C4_outcome_reporting {} 0 { attempt0 := some { decoded := some [] } }).1 [] rfl).1,
   ((C4_outcome_reporting {} 0 {}).2.1 .transport rfl (by decide) (by decide)).1⟩

/-- Claim C6: a failed poll stores the error and clears the validity flag
while leaving the cached records and their capture timestamp untouched, and
scrapes (the readers) never modify the cache, so every subsequent read sees
the prior records with validity false. -/
theorem C6_failed_publish (s : SysState) (now : Nat) (net : NetBehavior) (e : FetchError)
    (h : (GetQueues s.client now net).1 = .error e) :
    (collectQueueData s now net).coll.cachedQueues = s.coll.cachedQueues ∧
    (collectQueueData s now net).coll.cacheTimestamp = s.coll.cacheTimestamp ∧
    (collectQueueData s now net).coll.cacheValid = false ∧
    (collectQueueData s now net).coll.collectionError = some e ∧
    ∀ n, (scrapeStep (collectQueueData s now net) n).coll = (collectQueueData s now net).coll := by
  simp only [collectQueueData]
  rw [h]
  exact ⟨rfl, rfl, rfl, rfl, fun n => rfl⟩

/-- Claim C6, witness: the startup system polled against a dead network. -/
theorem C6_failed_publish_witness :
    (GetQueues (initSys 15).client 0 {}).1 = Except.error FetchError.transport ∧
    (collectQueueData (initSys 15) 0 {}).coll.cacheValid = false ∧
    (collectQueueData (initSys 15) 0 {}).coll.collectionError = some FetchError.transport :=
  ⟨rfl, (C6_failed_publish (initSys 15) 0 {} .transport rfl).2.2.1,
   (C6_failed_publish (initSys 15) 0 {} .transport rfl).2.2.2.1⟩

/-- Claim C1, counterexample: a stale snapshot (validity false after a
failed poll) still holds one cached record, yet the scrape emits no
queue-scoped measurement for it — the source clears the queue families and
returns before rendering, instead of rendering the cached records
best-effort.  The error counter is incremented as the claim says. -/
theorem C1_counterexample :
    (let c : CollectorState :=
      { scrapeInterval := 15
        cachedQueues := [{ name := "q1", vhost := "v", messagesReady := 7 }]
        cacheValid := false
        collectionError := some FetchError.transport }
    c.cachedQueues.length = 1 ∧
    (Collect c {} 100).queueMessagesReady.entries = [] ∧
    (Collect c {} 100).queueMessages.entries = [] ∧
    (Collect c {} 100).scrapeErrorsTotal.lookup ["api_error"] = some 1) :=
  ⟨rfl, rfl, rfl, rfl⟩

/-- Claim C1, amended: a scrape taken while the snapshot is stale (validity
false, or older than twice the poll interval) still completes, but emits no
queue-scoped measurements at all — the queue families are cleared and the
cached records are not rendered — and the scrape error counter is
incremented exactly when a collection error is stored (stale-but-valid
snapshots increment nothing). -/
theorem C1_stale_scrape (c : CollectorState) (m : Metrics) (now : Nat)
    (h : c.cacheValid = false ∨ 2 * c.scrapeInterval < now - c.cacheTimestamp) :
    (Collect c m now).queueMessages.entries = [] ∧
    (Collect c m now).queueMessagesReady.entries = [] ∧
    (Collect c m now).queueMessagesUnacknowledged.entries = [] ∧
    (Collect c m now).queueMessagePublishRate.entries = [] ∧
    (Collect c m now).queueMessageDeliverRate.entries = [] ∧
    (Collect c m now).queueMessageAckRate.entries = [] ∧
    (Collect c m now).queueMessageRedeliverRate.entries = [] ∧
    (Collect c m now).queueConsumers.entries = [] ∧
    (Collect c m now).queueConsumerUtilisation.entries = [] ∧
    (Collect c m now).queueConsumerCapacity.entries = [] ∧
    (Collect c m now).queueState.entries = [] ∧
    (Collect c m now).queueIsDeadLetter.entries = [] ∧
    (Collect c m now).queueHealthScore.entries = [] ∧
    (Collect c m now).queueDepthAlert.entries = [] ∧
    (Collect c m now).queueUtilizationAlert.entries = [] ∧
    (Collect c m now).scrapeErrorsTotal =
      (if c.collectionError.isSome then m.scrapeErrorsTotal.inc ["api_error"]
       else m.scrapeErrorsTotal) := by
  simp only [Collect]
  rw [if_pos h]
  split_ifs with he <;>
    exact ⟨rfl, rfl, rfl, rfl, rfl, rfl, rfl, rfl, rfl, rfl, rfl, rfl, rfl, rfl, rfl, rfl⟩

/-- Claim C1 (amended), witness: a scrape against an invalid snapshot with a
stored error. -/
theorem C1_stale_scrape_witness :
    (Collect { scrapeInterval := 15, cacheValid := false, collectionError := some .transport }
        {} 100).queueMessagesReady.entries = [] ∧
    (Collect { scrapeInterval := 15, cacheValid := false, collectionError := some .transport }
        {} 100).scrapeErrorsTotal =
      CounterVec.inc {} ["api_error"] := by
  refine ⟨?_, ?_⟩
  · exact (C1_stale_scrape
      { scrapeInterval := 15, cacheValid := false, collectionError := some .transport }
      {} 100 (Or.inl rfl)).2.1
  · exact ((C1_stale_scrape
      { scrapeInterval := 15, cacheValid := false, collectionError := some .transport }
      {} 100 (Or.inl rfl)).2.2.2.2.2.2.2.2.2.2.2.2.2.2.2).trans rfl

/-- Setting a fresh label vector materialises a new child at the end. -/
theorem set_entries_fresh (g : GaugeVec) (ls : Labels) (v : ℚ)
    (h : ls ∉ g.entries.map Prod.fst) :
    (g.set ls v).entries = g.entries ++ [(ls, v)] := by
  unfold GaugeVec.set
  rw [if_neg h]

/-- Folding one `set` per record over pairwise distinct fresh label vectors
appends exactly one child per record, in order. -/
theorem foldl_set_entries (k : Queue → Labels) (f : Queue → ℚ) (qs : List Queue) (g : GaugeVec)
    (hnd : (qs.map k).Nodup) (hdis : ∀ q ∈ qs, k q ∉ g.entries.map Prod.fst) :
    (qs.foldl (fun g q => g.set (k q) (f q)) g).entries =
      g.entries ++ qs.map (fun q => (k q, f q)) := by
  induction qs generalizing g with
  | nil => simp
  | cons q qs ih =>
    have hq : k q ∉ g.entries.map Prod.fst := hdis q (List.mem_cons_self q qs)
    have hset : (g.set (k q) (f q)).entries = g.entries ++ [(k q, f q)] :=
      set_entries_fresh g (k q) (f q) hq
    have hnd' : (qs.map k).Nodup := (List.nodup_cons.mp hnd).2
    have hknot : k q ∉ qs.map k := (List.nodup_cons.mp hnd).1
    rw [List.foldl_cons, ih (g.set (k q) (f q)) hnd']
    · rw [hset, List.append_assoc]
      simp
    · intro q' hq'
      rw [hset]
      simp only [List.map_append, List.mem_append]
      rintro (hin | hin)
      · exact hdis q' (List.mem_cons_of_mem q hq') hin
      · simp only [List.map_cons, List.map_nil, List.mem_singleton] at hin
        exact hknot (hin ▸ List.mem_map_of_mem k hq')

/-- `updateQueueMetrics` touches the ready-messages family by exactly one
`set` keyed by the record's name and vhost. -/
theorem updateQueueMetrics_ready (q : Queue) (m : Metrics) :
    (updateQueueMetrics q m).queueMessagesReady =
      m.queueMessagesReady.set [q.name, q.vhost] (q.messagesReady : ℚ) := rfl

/-- `updateQueueMetrics` touches the consumers family by exactly one `set`. -/
theorem updateQueueMetrics_consumers (q : Queue) (m : Metrics) :
    (updateQueueMetrics q m).queueConsumers =
      m.queueConsumers.set [q.name, q.vhost] (q.consumers : ℚ) := rfl

/-- `updateQueueMetrics` touches the health-score family by exactly one
`set` carrying the derived health score. -/
theorem updateQueueMetrics_health (q : Queue) (m : Metrics) :
    (updateQueueMetrics q m).queueHealthScore =
      m.queueHealthScore.set [q.name, q.vhost] (calculateHealthScore q) := rfl

/-- Rendering a record list projects to a per-family fold of `set`s
(ready-messages family). -/
theorem foldl_update_ready (qs : List Queue) (m : Metrics) :
    (qs.foldl (fun m q => updateQueueMetrics q m) m).queueMessagesReady =
      qs.foldl (fun g q => g.set [q.name, q.vhost] (q.messagesReady : ℚ))
        m.queueMessagesReady := by
  induction qs generalizing m with
  | nil => rfl
  | cons q qs ih =>
    rw [List.foldl_cons, List.foldl_cons, ih, updateQueueMetrics_ready]

/-- Rendering a record list projects to a per-family fold of `set`s
(consumers family). -/
theorem foldl_update_consumers (qs : List Queue) (m : Metrics) :
    (qs.foldl (fun m q => updateQueueMetrics q m) m).queueConsumers =
      qs.foldl (fun g q => g.set [q.name, q.vhost] (q.consumers : ℚ))
        m.queueConsumers := by
  induction qs generalizing m with
  | nil => rfl
  | cons q qs ih =>
    rw [List.foldl_cons, List.foldl_cons, ih, updateQueueMetrics_consumers]

/-- Rendering a record list projects to a per-family fold of `set`s
(health-score family). -/
theorem foldl_update_health (qs : List Queue) (m : Metrics) :
    (qs.foldl (fun m q => updateQueueMetrics q m) m).queueHealthScore =
      qs.foldl (fun g q => g.set [q.name, q.vhost] (calculateHealthScore q))
        m.queueHealthScore := by
  induction qs generalizing m with
  | nil => rfl
  | cons q qs ih =>
    rw [List.foldl_cons, List.foldl_cons, ih, updateQueueMetrics_health]

/-- A fresh scrape renders the reset-then-fold of the cached records. -/
theorem collect_fresh (c : CollectorState) (m : Metrics) (now : Nat)
    (hcond : ¬(c.cacheValid = false ∨ 2 * c.scrapeInterval < now - c.cacheTimestamp)) :
    Collect c m now =
      { c.cachedQueues.foldl (fun m q => updateQueueMetrics q m) (ResetQueueMetrics m) with
        scrapeDurationSeconds := 0 } := by
  simp only [Collect]
  rw [if_neg hcond]

/-- Claim C9: on a valid, fresh snapshot of N pairwise distinct queues, a
scrape clears the previously emitted queue-scoped children and renders
exactly one child per record in each per-queue family (shown here for the
ready-messages, consumers and health-score families), so exactly the N
queues' label vectors are present — in order, with no leftover series from
any earlier snapshot — and the number of children equals N. -/
theorem C9_roundtrip (c : CollectorState) (m : Metrics) (now : Nat)
    (hv : c.cacheValid = true)
    (hf : now - c.cacheTimestamp ≤ 2 * c.scrapeInterval)
    (hd : (c.cachedQueues.map fun q => [q.name, q.vhost]).Nodup) :
    (Collect c m now).queueMessagesReady.entries =
      c.cachedQueues.map (fun q => ([q.name, q.vhost], (q.messagesReady : ℚ))) ∧
    (Collect c m now).queueConsumers.entries =
      c.cachedQueues.map (fun q => ([q.name, q.vhost], (q.consumers : ℚ))) ∧
    (Collect c m now).queueHealthScore.entries =
      c.cachedQueues.map (fun q => ([q.name, q.vhost], calculateHealthScore q)) ∧
    (Collect c m now).queueMessagesReady.entries.map Prod.fst =
      c.cachedQueues.map (fun q => [q.name, q.vhost]) ∧
    (Collect c m now).queueMessagesReady.entries.length = c.cachedQueues.length := by
  have hcond : ¬(c.cacheValid = false ∨ 2 * c.scrapeInterval < now - c.cacheTimestamp) := by
    rintro (h | h)
    · rw [hv] at h; cases h
    · omega
  rw [collect_fresh c m now hcond]
  have hready : (c.cachedQueues.foldl (fun m q => updateQueueMetrics q m)
      (ResetQueueMetrics m)).queueMessagesReady.entries =
      c.cachedQueues.map (fun q => ([q.name, q.vhost], (q.messagesReady : ℚ))) := by
    rw [foldl_update_ready]
    have := foldl_set_entries (fun q => [q.name, q.vhost]) (fun q => (q.messagesReady : ℚ))
      c.cachedQueues (ResetQueueMetrics m).queueMessagesReady hd (by intro q hq; simp [ResetQueueMetrics, GaugeVec.reset])
    simpa [ResetQueueMetrics, GaugeVec.reset] using this
  have hcons : (c.cachedQueues.foldl (fun m q => updateQueueMetrics q m)
      (ResetQueueMetrics m)).queueConsumers.entries =
      c.cachedQueues.map (fun q => ([q.name, q.vhost], (q.consumers : ℚ))) := by
    rw [foldl_update_consumers]
    have := foldl_set_entries (fun q => [q.name, q.vhost]) (fun q => (q.consumers : ℚ))
      c.cachedQueues (ResetQueueMetrics m).queueConsumers hd (by intro q hq; simp [ResetQueueMetrics, GaugeVec.reset])
    simpa [ResetQueueMetrics, GaugeVec.reset] using this
  have hhealth : (c.cachedQueues.foldl (fun m q => updateQueueMetrics q m)
      (ResetQueueMetrics m)).queueHealthScore.entries =
      c.cachedQueues.map (fun q => ([q.name, q.vhost], calculateHealthScore q)) := by
    rw [foldl_update_health]
    have := foldl_set_entries (fun q => [q.name, q.vhost]) (fun q => calculateHealthScore q)
      c.cachedQueues (ResetQueueMetrics m).queueHealthScore hd (by intro q hq; simp [ResetQueueMetrics, GaugeVec.reset])
    simpa [ResetQueueMetrics, GaugeVec.reset] using this
  refine ⟨hready, hcons, hhealth, ?_, ?_⟩
  · dsimp only
    rw [hready]
    simp [List.map_map, Function.comp]
  · dsimp only
    rw [hready]
    simp

/-- Claim C9, witness: two distinct queues render two children per family,
replacing a leftover child from a previous snapshot. -/
theorem C9_roundtrip_witness :
    (Collect
      { scrapeInterval := 15
        cachedQueues := [{ name := "a", vhost := "v", messagesReady := 1 },
          { name := "b", vhost := "v", messagesReady := 2 }]
        cacheTimestamp := 90
        cacheValid := true }
      { queueMessagesReady := { entries := [(["old", "v"], 9)] } } 100).queueMessagesReady.entries =
      [(["a", "v"], 1), (["b", "v"], 2)] := by
  have h := (C9_roundtrip
    { scrapeInterval := 15
      cachedQueues := [{ name := "a", vhost := "v", messagesReady := 1 },
        { name := "b", vhost := "v", messagesReady := 2 }]
      cacheTimestamp := 90
      cacheValid := true }
    { queueMessagesReady := { entries := [(["old", "v"], 9)] } } 100 rfl (by decide)
    (by decide)).1
  exact h.trans (by decide)

/-- A successful `GetQueues` ends in `recordSuccess`, so the returned
breaker state is closed with a zero failure count. -/
theorem getQueues_ok_state {s : ClientState} {now : Nat} {net : NetBehavior} {qs : List Queue}
    (h : (GetQueues s now net).1 = .ok qs) :
    (GetQueues s now net).2.1 = recordSuccess (isCircuitOpen s now).2 := by
  rcases getQueues_shape s now net with ⟨qs', hsh⟩ | ⟨e, _, _, hsh⟩ | ⟨hres, hsh⟩
  · rw [hsh]
  · rw [hsh] at h
    simp at h
  · rcases hres with h1 | h1 <;> rw [h1] at h <;> simp at h

/-- `updateCircuitBreakerMetrics` right after a success writes 0 into the
state gauge (the breaker is closed at that point). -/
theorem updateCircuitBreakerMetrics_success (x : ClientState) (m : Metrics) :
    (updateCircuitBreakerMetrics (recordSuccess x) m).circuitBreakerState =
      m.circuitBreakerState.set ["rabbitmq_api"] 0 := rfl

/-- Writing 0 preserves the all-children-are-zero property of a gauge. -/
theorem set_entries_zero {g : GaugeVec} {ls : Labels}
    (h : ∀ e ∈ g.entries, e.2 = 0) : ∀ e ∈ (g.set ls 0).entries, e.2 = 0 := by
  intro e he
  unfold GaugeVec.set at he
  split_ifs at he with hmem
  · simp only [List.mem_map] at he
    obtain ⟨a, ha, rfl⟩ := he
    split_ifs with hla
    · rfl
    · exact h a ha
  · rcases List.mem_append.mp he with h1 | h1
    · exact h e h1
    · simp only [List.mem_singleton] at h1
      rw [h1]

/-- Rendering never touches the circuit-breaker state gauge (single
record). -/
theorem updateQueueMetrics_breakerState (q : Queue) (m : Metrics) :
    (updateQueueMetrics q m).circuitBreakerState = m.circuitBreakerState := rfl

/-- Rendering never touches the circuit-breaker state gauge (record
list). -/
theorem foldl_update_breakerState (qs : List Queue) (m : Metrics) :
    (qs.foldl (fun m q => updateQueueMetrics q m) m).circuitBreakerState =
      m.circuitBreakerState := by
  induction qs generalizing m with
  | nil => rfl
  | cons q qs ih =>
    rw [List.foldl_cons, ih, updateQueueMetrics_breakerState]

/-- A scrape never touches the circuit-breaker state gauge. -/
theorem collect_breakerState (c : CollectorState) (m : Metrics) (now : Nat) :
    (Collect c m now).circuitBreakerState = m.circuitBreakerState := by
  by_cases hcond : c.cacheValid = false ∨ 2 * c.scrapeInterval < now - c.cacheTimestamp
  · simp only [Collect]
    rw [if_pos hcond]
    split_ifs <;> rfl
  · rw [collect_fresh c m now hcond]
    dsimp only
    rw [foldl_update_breakerState]
    rfl

/-- Supporting invariant behind claim C2: in every reachable state, every
materialised child of the circuit-breaker state gauge carries value 0 — the
gauge is only ever written inside the successful-poll path, where the
breaker is necessarily closed, so the open state (value 1) is never
published. -/
theorem reachable_breaker_gauge_zero {interval : Nat} {s : SysState}
    (h : Reachable interval s) :
    ∀ e ∈ s.metrics.circuitBreakerState.entries, e.2 = 0 := by
  induction h with
  | init => intro e he; exact absurd he (by simp [initSys])
  | @poll s now net _ ih =>
    intro e he
    simp only [collectQueueData] at he
    rcases hq : (GetQueues s.client now net).1 with e' | qs
    · rw [hq] at he
      exact ih e he
    · rw [hq] at he
      rw [getQueues_ok_state hq] at he
      rw [updateCircuitBreakerMetrics_success] at he
      exact set_entries_zero ih e he
  | @scrape s now _ ih =>
    intro e he
    simp only [scrapeStep] at he
    rw [collect_breakerState] at he
    exact ih e he
  | @health s now net _ ih => exact ih

/-- Claim C2: five consecutive failed polls from startup open the breaker,
yet the published circuit-breaker state gauge has never been written — its
child for the rabbitmq_api endpoint does not exist, so it does not read 1.
The gauge is updated only inside the successful-poll path, where the breaker
is always closed. -/
theorem C2_open_breaker_not_published :
    (let s1 := collectQueueData (initSys 15) 1 {}
     let s2 := collectQueueData s1 2 {}
     let s3 := collectQueueData s2 3 {}
     let s4 := collectQueueData s3 4 {}
     let s5 := collectQueueData s4 5 {}
     s5.client.circuitOpen = true ∧
     s5.client.failureCount = 5 ∧
     s5.metrics.circuitBreakerState.lookup ["rabbitmq_api"] = none) :=
  ⟨rfl, rfl, rfl⟩

end RabbitMQExporter
